import Mathlib

/-!
# Verification of the automail mail-merge pipeline

Shallow embedding of `src/main.py` (the richer of the two near-identical
entry points: attachments + HTML alternative) of the automail repository,
together with the tiny `create_message` of `src/bulk_compose.py`.

Modelling conventions:
* A CSV row (`csv.DictReader` record) is an association list of
  field name to string value, keys unique, in column order.
* Python `str.format` on the `{field}` subset the templates use is embedded
  as `parseFmt` (placeholder grammar: `{{`/`}}` escapes, `{name}` fields;
  a lone `{` or `}` raises `ValueError`) followed by `renderToks`
  (left-to-right substitution; the first absent field raises
  `KeyError(field)`).
* External collaborators (file system, `mimetypes.guess_type`,
  `markdown2.markdown`, the Gmail send endpoint, credential acquisition)
  are parameters of an `Env` record: deterministic functions / flags, as
  the spec specifies them only by interface.
* Row-local exceptions (`KeyError`, `HttpError`) are values of `FmtError` /
  outcomes; the uncaught `ValueError` of a malformed template and the
  fatal setup failures surface as the `Except.error` of the run.
-/

/-- One spreadsheet record: ordered fields, keys unique within a row. -/
abbrev Row := List (String × String)

/-- Field lookup, `row[k]` / `row.get(k)`. -/
def Row.get? (r : Row) (k : String) : Option String :=
  (r.find? (fun p => p.1 = k)).map (fun p => p.2)

/-- A parsed template token: a literal character or a `{field}` placeholder. -/
inductive Tok where
  | lit (c : Char)
  | field (f : String)
  deriving DecidableEq, Repr

/-- Parser state machine for a `str.format` template.  `none` mode scans
literal text (`{{`/`}}` are escaped braces, a lone `}` is malformed);
`some acc` mode accumulates a field name opened by `{`, closed by the
first `}` (a nested `{` or end of input inside a name is malformed).
All malformed inputs are Python's `ValueError`. -/
def parseFmtGo : Option String → List Char → Except Unit (List Tok)
  | none, [] => .ok []
  | none, '{' :: '{' :: rest => (parseFmtGo none rest).map (fun ts => .lit '{' :: ts)
  | none, '}' :: '}' :: rest => (parseFmtGo none rest).map (fun ts => .lit '}' :: ts)
  | none, '{' :: rest => parseFmtGo (some "") rest
  | none, '}' :: _ => .error ()
  | none, c :: rest => (parseFmtGo none rest).map (fun ts => .lit c :: ts)
  | some _, [] => .error ()
  | some acc, '}' :: rest => (parseFmtGo none rest).map (fun ts => .field acc :: ts)
  | some _, '{' :: _ => .error ()
  | some acc, c :: rest => parseFmtGo (some (acc ++ String.singleton c)) rest

/-- Parse a `str.format` template into tokens. -/
def parseFmt (cs : List Char) : Except Unit (List Tok) :=
  parseFmtGo none cs

/-- Substitute row values for tokens, left to right.  The first field
absent from the row is the `KeyError` payload. -/
def renderToks : List Tok → Row → Except String String
  | [], _ => .ok ""
  | .lit c :: rest, row => (renderToks rest row).map (fun s => String.singleton c ++ s)
  | .field f :: rest, row =>
    match row.get? f with
    | none => .error f
    | some v => (renderToks rest row).map (fun s => v ++ s)

/-- Failure modes of template formatting as the per-row code observes them:
`malformed` is Python's `ValueError` (uncaught, batch-fatal), `missingField`
is `KeyError(field)` (caught per row). -/
inductive FmtError where
  | malformed
  | missingField (f : String)
  deriving DecidableEq, Repr

/-- Python `tpl.format(**row)`. -/
def formatStr (tpl : String) (row : Row) : Except FmtError String :=
  match parseFmt tpl.data with
  | .error _ => .error .malformed
  | .ok toks =>
    match renderToks toks row with
    | .error f => .error (.missingField f)
    | .ok s => .ok s

/-- Fields referenced by a token list. -/
def toksFields (toks : List Tok) : List String :=
  toks.filterMap (fun t => match t with | .field f => some f | .lit _ => none)

example : formatStr "Hi {name}" [("name", "Ann")] = .ok "Hi Ann" := rfl
example : formatStr "Hi {name}" [("email", "a@x")] = .error (.missingField "name") := rfl
example : formatStr "Hi \x7bname" [("name", "Ann")] = .error .malformed := rfl
example : formatStr "a\x7db" [] = .error .malformed := rfl
example : formatStr "{{x}}" [] = .ok "{x}" := rfl

/-- The file system as the Attachment Resolver sees it: a path either
holds file bytes or does not exist (`Path.is_file` false). -/
abbrev FS := String → Option (List Nat)

/-- One resolved attachment as `msg.add_attachment` receives it. -/
structure Attachment where
  filename : String
  maintype : String
  subtype : String
  content : List Nat
  deriving DecidableEq, Repr

/-- Python `Path(p).name`: the final path component. -/
def basename (p : String) : String :=
  ((p.splitOn "/").getLast?).getD p

/-- Python `ct.split("/", 1)`: maintype before the first slash, subtype after. -/
def splitType (ct : String) : String × String :=
  match ct.splitOn "/" with
  | [] => ("", "")
  | hd :: tl => (hd, String.intercalate "/" tl)

/-- The attachment built for an existing file: content type guessed from
the path name, defaulting to `application/octet-stream`; filename is the
path's basename; content is the file's bytes. -/
def mkAttachment (fp : String) (guess : String → Option String) (bytes : List Nat) :
    Attachment :=
  let ct := (guess fp).getD "application/octet-stream"
  { filename := basename fp
    maintype := (splitType ct).1
    subtype := (splitType ct).2
    content := bytes }

/-- The function `_attach_files` of `src/main.py`: for each pattern in order, format it
against the row (a `KeyError`/`ValueError` propagates), then either skip a
nonexistent path with a warning or attach the file.  Returns the
attachments and the warned-about paths, both in pattern order. -/
def attachFiles (paths : List String) (row : Row) (fs : FS)
    (guess : String → Option String) :
    Except FmtError (List Attachment × List String) :=
  match paths with
  | [] => .ok ([], [])
  | tpl :: rest =>
    match formatStr tpl row with
    | .error e => .error e
    | .ok fp =>
      match attachFiles rest row fs guess with
      | .error e => .error e
      | .ok (atts, warns) =>
        match fs fp with
        | none => .ok (atts, fp :: warns)
        | some bytes => .ok (mkAttachment fp guess bytes :: atts, warns)

/-- The structured message `create_message` assembles before serialisation. -/
structure EmailMsg where
  toAddr : String
  sender : String
  subject : String
  plainBody : String
  htmlBody : Option String
  attachments : List Attachment
  deriving DecidableEq, Repr

/-- Modelled from the spec: `EmailMessage.as_bytes` is MIME-library
internals, out of scope; the spec requires of it only "a deterministic,
transport-encodable byte representation".  A concrete deterministic
rendering of headers, body parts and attachments. -/
def serializeMsg (m : EmailMsg) : String :=
  "To: " ++ m.toAddr ++ "\x0aFrom: " ++ m.sender ++ "\x0aSubject: " ++ m.subject ++
  "\x0a\x0a" ++ m.plainBody ++
  (match m.htmlBody with
   | none => ""
   | some h => "\x0a--alternative\x0a" ++ h) ++
  String.join (m.attachments.map (fun a =>
    "\x0a--attachment\x0aContent-Type: " ++ a.maintype ++ "/" ++ a.subtype ++
    "; filename=" ++ a.filename ++ "\x0a" ++
    String.join (a.content.map (fun b => toString b ++ ","))))

/-- The serialised message as bytes (`msg.as_bytes()`). -/
def msgBytes (m : EmailMsg) : List Nat :=
  (serializeMsg m).data.map Char.toNat

/-- The url-safe base64 alphabet. -/
def b64char (n : Nat) : Char :=
  "ABCDEFGHIJKLMNOPQRSTUVWXYZabcdefghijklmnopqrstuvwxyz0123456789-_".data.getD
    (n % 64) 'A'

/-- Python `base64.urlsafe_b64encode` on a byte list. -/
def b64urlEncode : List Nat → String
  | [] => ""
  | [a] => String.mk [b64char (a / 4), b64char (a % 4 * 16), '=', '=']
  | [a, b] =>
    String.mk [b64char (a / 4), b64char (a % 4 * 16 + b / 16),
               b64char (b % 16 * 4), '=']
  | a :: b :: c :: rest =>
    String.mk [b64char (a / 4), b64char (a % 4 * 16 + b / 16),
               b64char (b % 16 * 4 + c / 64), b64char (c % 64)] ++
    b64urlEncode rest

/-- The external collaborators, as deterministic interfaces: the file
system, `mimetypes.guess_type`, `markdown2.markdown`, the Gmail send
endpoint (`none` = accepted, `some e` = `HttpError` with message `e`),
the two input files, and whether credential acquisition succeeds. -/
structure Env where
  fs : FS
  guessType : String → Option String
  markdown : String → String
  sendResult : String → Option String
  templateFile : Option String
  csvRows : Option (List Row)
  authOk : Bool

/-- The function `create_message` of `src/main.py`: format the body, derive the HTML
alternative, read the recipient (`row["email"]`), format the subject,
resolve attachments, then serialise and base64url-encode.  Returns the
`raw` payload and the attachment warnings, or the first row-local /
fatal formatting error in program order. -/
def create_message (row : Row) (subject_fmt body_template sender : String)
    (attachments : List String) (env : Env) :
    Except FmtError (String × List String) :=
  match formatStr body_template row with
  | .error e => .error e
  | .ok md_filled =>
    let plain_body := md_filled
    let html_body := env.markdown md_filled
    match row.get? "email" with
    | none => .error (.missingField "email")
    | some toAddr =>
      match formatStr subject_fmt row with
      | .error e => .error e
      | .ok subj =>
        match (if attachments.isEmpty then .ok ([], [])
               else attachFiles attachments row env.fs env.guessType :
               Except FmtError (List Attachment × List String)) with
        | .error e => .error e
        | .ok (atts, warns) =>
          let msg : EmailMsg :=
            { toAddr := toAddr, sender := sender, subject := subj,
              plainBody := plain_body, htmlBody := some html_body,
              attachments := atts }
          .ok (b64urlEncode (msgBytes msg), warns)

/-- The function `create_message` of `src/bulk_compose.py`: To, Subject, plain body
only — no HTML alternative, no attachments. -/
def bulkCreateMessage (row : Row) (subject_fmt body_template sender : String) :
    Except FmtError String :=
  match row.get? "email" with
  | none => .error (.missingField "email")
  | some toAddr =>
    match formatStr subject_fmt row with
    | .error e => .error e
    | .ok subj =>
      match formatStr body_template row with
      | .error e => .error e
      | .ok body =>
        let msg : EmailMsg :=
          { toAddr := toAddr, sender := sender, subject := subj,
            plainBody := body, htmlBody := none, attachments := [] }
        .ok (b64urlEncode (msgBytes msg))

/-- Observable invocations of the external collaborators. -/
inductive Event where
  | getCredential
  | send (payload : String)
  deriving DecidableEq, Repr

/-- The per-row outcome, one per printed status line:
`sent` (checkmark line), `skipped` (dry-run line), `failedProvider`
(`HttpError` line), `failedMissingField` (`KeyError` line, carrying
`row.get("email")` as the printed recipient). -/
inductive SendOutcome where
  | sent (email : String)
  | skipped (email : String)
  | failedProvider (email : String) (e : String)
  | failedMissingField (f : String) (email : Option String)
  deriving DecidableEq, Repr

/-- The CLI arguments the row loop consumes. -/
structure Config where
  subject : String
  sender : String
  attach : List String
  dryRun : Bool

/-- A batch-fatal condition: an exception that propagates past the row
loop and terminates the run. -/
inductive Fatal where
  | templateUnreadable
  | csvUnreadable
  | authFailed
  | uncaughtFormatError
  deriving DecidableEq, Repr

/-- The expression `(row.get? "email").getD ""`: the recipient printed in status lines
after a successful assembly (in which case it is always present). -/
def emailOf (r : Row) : String := (r.get? "email").getD ""

/-- One iteration of the row loop of `main` in `src/main.py`: build the
message; `KeyError` is caught as a `Failed` outcome; a send is attempted
unless in dry-run, with `HttpError` caught as a `Failed` outcome; a
`ValueError` from a malformed template escapes the `except` clauses and
is batch-fatal. -/
def processRow (cfg : Config) (tpl : String) (env : Env) (row : Row) :
    Except Fatal (SendOutcome × List Event) :=
  match create_message row cfg.subject tpl cfg.sender cfg.attach env with
  | .error .malformed => .error .uncaughtFormatError
  | .error (.missingField f) => .ok (.failedMissingField f (row.get? "email"), [])
  | .ok (payload, _warns) =>
    if cfg.dryRun then .ok (.skipped (emailOf row), [])
    else
      match env.sendResult payload with
      | none => .ok (.sent (emailOf row), [.send payload])
      | some e => .ok (.failedProvider (emailOf row) e, [.send payload])

/-- The row loop: rows in input order, one outcome each, events
concatenated; the first batch-fatal exception aborts the run. -/
def runBatch (cfg : Config) (tpl : String) (env : Env) :
    List Row → Except Fatal (List SendOutcome × List Event)
  | [] => .ok ([], [])
  | r :: rest =>
    match processRow cfg tpl env r with
    | .error e => .error e
    | .ok (o, ev) =>
      match runBatch cfg tpl env rest with
      | .error e => .error e
      | .ok (os, evs) => .ok (o :: os, ev ++ evs)

/-- The function `main` of `src/main.py`: read the template, read and materialise the
rows, acquire the Gmail service once unless in dry-run, then run the row
loop. -/
def mainRun (cfg : Config) (env : Env) :
    Except Fatal (List SendOutcome × List Event) :=
  match env.templateFile with
  | none => .error .templateUnreadable
  | some tpl =>
    match env.csvRows with
    | none => .error .csvUnreadable
    | some rows =>
      if cfg.dryRun then runBatch cfg tpl env rows
      else if env.authOk then
        match runBatch cfg tpl env rows with
        | .error e => .error e
        | .ok (os, evs) => .ok (os, Event.getCredential :: evs)
      else .error .authFailed

/-- The process exit status: `sys.exit(main())` is 0 when `main` returns
(it returns `None`), and the interpreter exits nonzero on an uncaught
exception. -/
def exitCode (cfg : Config) (env : Env) : Nat :=
  match mainRun cfg env with
  | .ok _ => 0
  | .error _ => 1

/-- The payload a row produces when its assembly succeeds. -/
def payloadOf (cfg : Config) (tpl : String) (env : Env) (r : Row) : String :=
  match create_message r cfg.subject tpl cfg.sender cfg.attach env with
  | .ok pw => pw.1
  | .error _ => ""

/-! ### Helper lemmas about the row loop -/

theorem processRow_of_missingField (cfg : Config) (tpl : String) (env : Env)
    (r : Row) (f : String)
    (hc : create_message r cfg.subject tpl cfg.sender cfg.attach env =
      .error (.missingField f)) :
    processRow cfg tpl env r = .ok (.failedMissingField f (r.get? "email"), []) := by
  simp [processRow, hc]

theorem processRow_of_malformed (cfg : Config) (tpl : String) (env : Env)
    (r : Row)
    (hc : create_message r cfg.subject tpl cfg.sender cfg.attach env =
      .error .malformed) :
    processRow cfg tpl env r = .error .uncaughtFormatError := by
  simp [processRow, hc]

theorem processRow_sent (cfg : Config) (tpl : String) (env : Env) (r : Row)
    (pw : String × List String) (hd : cfg.dryRun = false)
    (hc : create_message r cfg.subject tpl cfg.sender cfg.attach env = .ok pw)
    (hs : env.sendResult pw.1 = none) :
    processRow cfg tpl env r = .ok (.sent (emailOf r), [.send pw.1]) := by
  simp [processRow, hc, hd, hs]

theorem processRow_dryRun_skipped (cfg : Config) (tpl : String) (env : Env)
    (r : Row) (pw : String × List String) (hd : cfg.dryRun = true)
    (hc : create_message r cfg.subject tpl cfg.sender cfg.attach env = .ok pw) :
    processRow cfg tpl env r = .ok (.skipped (emailOf r), []) := by
  simp [processRow, hc, hd]

theorem processRow_dryRun_events (cfg : Config) (tpl : String) (env : Env)
    (r : Row) (o : SendOutcome) (ev : List Event) (hd : cfg.dryRun = true)
    (h : processRow cfg tpl env r = .ok (o, ev)) : ev = [] := by
  unfold processRow at h
  cases hc : create_message r cfg.subject tpl cfg.sender cfg.attach env with
  | error e =>
    cases e <;> rw [hc] at h <;> simp_all
  | ok pw =>
    rw [hc] at h
    simp [hd] at h
    exact h.2

theorem processRow_ok_of_not_malformed (cfg : Config) (tpl : String) (env : Env)
    (r : Row)
    (hc : create_message r cfg.subject tpl cfg.sender cfg.attach env ≠
      .error .malformed) :
    ∃ o ev, processRow cfg tpl env r = .ok (o, ev) := by
  unfold processRow
  cases hcm : create_message r cfg.subject tpl cfg.sender cfg.attach env with
  | error e =>
    cases e with
    | malformed => exact absurd hcm hc
    | missingField f => exact ⟨_, _, rfl⟩
  | ok pw =>
    by_cases hd : cfg.dryRun
    · simp [hd]
    · simp [hd]
      cases env.sendResult pw.1 <;> simp

/-- The row loop, when it completes, yields exactly one outcome per row,
and the outcome at position `i` is the outcome of the row at position `i`. -/
theorem runBatch_ok_spec (cfg : Config) (tpl : String) (env : Env) :
    ∀ (rows : List Row) (os : List SendOutcome) (evs : List Event),
    runBatch cfg tpl env rows = .ok (os, evs) →
    os.length = rows.length ∧
    ∀ i (hi : i < rows.length) (hi2 : i < os.length),
      ∃ ev, processRow cfg tpl env (rows.get ⟨i, hi⟩) = .ok (os.get ⟨i, hi2⟩, ev) := by
  intro rows
  induction rows with
  | nil =>
    intro os evs h
    simp [runBatch] at h
    simp [h.1]
  | cons r rest ih =>
    intro os evs h
    unfold runBatch at h
    cases hp : processRow cfg tpl env r with
    | error e => rw [hp] at h; simp at h
    | ok p =>
      obtain ⟨o, ev⟩ := p
      rw [hp] at h
      cases hb : runBatch cfg tpl env rest with
      | error e => rw [hb] at h; simp at h
      | ok q =>
        obtain ⟨os', evs'⟩ := q
        rw [hb] at h
        simp at h
        obtain ⟨ho, -⟩ := h
        obtain ⟨hlen, hget⟩ := ih os' evs' hb
        subst ho
        refine ⟨by simp [hlen], ?_⟩
        intro i hi hi2
        cases i with
        | zero => exact ⟨ev, by simpa using hp⟩
        | succ j =>
          simpa using hget j (by simpa using hi) (by simpa using hi2)

/-- In dry-run mode a completed row loop emits no external events. -/
theorem runBatch_dryRun_evs (cfg : Config) (tpl : String) (env : Env)
    (hd : cfg.dryRun = true) :
    ∀ (rows : List Row) (os : List SendOutcome) (evs : List Event),
    runBatch cfg tpl env rows = .ok (os, evs) → evs = [] := by
  intro rows
  induction rows with
  | nil => intro os evs h; simp [runBatch] at h; exact h.2
  | cons r rest ih =>
    intro os evs h
    unfold runBatch at h
    cases hp : processRow cfg tpl env r with
    | error e => rw [hp] at h; simp at h
    | ok p =>
      obtain ⟨o, ev⟩ := p
      rw [hp] at h
      cases hb : runBatch cfg tpl env rest with
      | error e => rw [hb] at h; simp at h
      | ok q =>
        obtain ⟨os', evs'⟩ := q
        rw [hb] at h
        simp at h
        rw [← h.2, processRow_dryRun_events cfg tpl env r o ev hd hp,
          ih os' evs' hb]
        rfl

/-- In sending mode, when every row assembles and the provider accepts
every payload, the row loop sends each row in input order. -/
theorem runBatch_sending_clean (cfg : Config) (tpl : String) (env : Env)
    (hd : cfg.dryRun = false) :
    ∀ (rows : List Row),
    (∀ r ∈ rows, ∃ pw, create_message r cfg.subject tpl cfg.sender cfg.attach env =
        .ok pw ∧ env.sendResult pw.1 = none) →
    runBatch cfg tpl env rows =
      .ok (rows.map (fun r => SendOutcome.sent (emailOf r)),
           rows.map (fun r => Event.send (payloadOf cfg tpl env r))) := by
  intro rows
  induction rows with
  | nil => intro _; rfl
  | cons r rest ih =>
    intro hok
    obtain ⟨pw, hc, hs⟩ := hok r (List.mem_cons_self r rest)
    have hpr := processRow_sent cfg tpl env r pw hd hc hs
    have hpay : payloadOf cfg tpl env r = pw.1 := by simp [payloadOf, hc]
    unfold runBatch
    rw [hpr, ih (fun r' hr' => hok r' (List.mem_cons_of_mem r hr'))]
    simp [hpay]

/-- If no row's assembly hits a malformed template, the row loop completes. -/
theorem runBatch_ok_of_no_malformed (cfg : Config) (tpl : String) (env : Env) :
    ∀ (rows : List Row),
    (∀ r ∈ rows, create_message r cfg.subject tpl cfg.sender cfg.attach env ≠
        .error .malformed) →
    ∃ os evs, runBatch cfg tpl env rows = .ok (os, evs) := by
  intro rows
  induction rows with
  | nil => intro _; exact ⟨[], [], rfl⟩
  | cons r rest ih =>
    intro hok
    obtain ⟨o, ev, hpr⟩ := processRow_ok_of_not_malformed cfg tpl env r
      (hok r (List.mem_cons_self r rest))
    obtain ⟨os, evs, hb⟩ := ih (fun r' hr' => hok r' (List.mem_cons_of_mem r hr'))
    refine ⟨o :: os, ev ++ evs, ?_⟩
    unfold runBatch
    rw [hpr, hb]

/-- A malformed body template makes the first row batch-fatal. -/
theorem runBatch_malformed_head (cfg : Config) (tpl : String) (env : Env)
    (r : Row) (rest : List Row)
    (hc : create_message r cfg.subject tpl cfg.sender cfg.attach env =
      .error .malformed) :
    runBatch cfg tpl env (r :: rest) = .error .uncaughtFormatError := by
  unfold runBatch
  rw [processRow_of_malformed cfg tpl env r hc]

/-- A completed run is a completed row loop, with the credential
acquisition prepended to its events in sending mode. -/
theorem mainRun_ok_batch (cfg : Config) (env : Env) (tpl : String)
    (rows : List Row) (os : List SendOutcome) (evs : List Event)
    (ht : env.templateFile = some tpl) (hr : env.csvRows = some rows)
    (h : mainRun cfg env = .ok (os, evs)) :
    ∃ evs', runBatch cfg tpl env rows = .ok (os, evs') ∧
      evs = (if cfg.dryRun then evs' else Event.getCredential :: evs') := by
  unfold mainRun at h
  rw [ht, hr] at h
  dsimp only at h
  by_cases hd : cfg.dryRun
  · rw [if_pos hd] at h
    exact ⟨evs, h, by rw [if_pos hd]⟩
  · rw [if_neg hd] at h
    by_cases ha : env.authOk
    · rw [if_pos ha] at h
      cases hb : runBatch cfg tpl env rows with
      | error e => rw [hb] at h; simp at h
      | ok q =>
        obtain ⟨os', evs'⟩ := q
        rw [hb] at h
        simp at h
        obtain ⟨h1, h2⟩ := h
        subst h1
        exact ⟨evs', rfl, by rw [if_neg hd]; exact h2.symm⟩
    · rw [if_neg ha] at h
      simp at h

/-! ### Concrete fixtures used to instantiate the theorems -/

/-- The spec's end-to-end spreadsheet: Ann and Bob. -/
def rowsAB : List Row :=
  [[("email", "a@x.com"), ("name", "Ann")], [("email", "b@x.com"), ("name", "Bob")]]

/-- Preview-mode CLI arguments. -/
def cfgPreview : Config :=
  { subject := "Hi {name}", sender := "Me <me@x.com>", attach := [], dryRun := true }

/-- Sending-mode CLI arguments. -/
def cfgSend : Config :=
  { subject := "Hi {name}", sender := "Me <me@x.com>", attach := [], dryRun := false }

/-- A benign environment: both input files readable, auth succeeds, the
provider accepts everything, no files on disk. -/
def envAB : Env :=
  { fs := fun _ => none
    guessType := fun _ => none
    markdown := id
    sendResult := fun _ => none
    templateFile := some "Hello {name}"
    csvRows := some rowsAB
    authOk := true }

/-! ### C1 -/

/-- C1: for every input batch whose run completes, the Batch Runner
produces exactly one SendOutcome per input row (`os.length = rows.length`),
and the outcome at position `i` is precisely the outcome of processing the
row at position `i` — rows are processed in input order, with no
reordering and no deduplication. -/
theorem batch_one_outcome_per_row_in_input_order
    (cfg : Config) (env : Env) (tpl : String) (rows : List Row)
    (os : List SendOutcome) (evs : List Event)
    (ht : env.templateFile = some tpl) (hr : env.csvRows = some rows)
    (h : mainRun cfg env = .ok (os, evs)) :
    os.length = rows.length ∧
    ∀ i (hi : i < rows.length) (hi2 : i < os.length),
      ∃ ev, processRow cfg tpl env (rows.get ⟨i, hi⟩) = .ok (os.get ⟨i, hi2⟩, ev) := by
  obtain ⟨evs', hb, -⟩ := mainRun_ok_batch cfg env tpl rows os evs ht hr h
  exact runBatch_ok_spec cfg tpl env rows os evs' hb

/-- C1, instantiated: the Ann/Bob batch in preview mode completes with
one outcome per row, each the outcome of its own row. -/
theorem batch_one_outcome_per_row_in_input_order_witness :
    ([SendOutcome.skipped "a@x.com", SendOutcome.skipped "b@x.com"] :
      List SendOutcome).length = rowsAB.length ∧
    ∀ i (hi : i < rowsAB.length)
      (hi2 : i < ([SendOutcome.skipped "a@x.com", SendOutcome.skipped "b@x.com"] :
        List SendOutcome).length),
      ∃ ev, processRow cfgPreview "Hello {name}" envAB (rowsAB.get ⟨i, hi⟩) =
        .ok (([SendOutcome.skipped "a@x.com", SendOutcome.skipped "b@x.com"] :
          List SendOutcome).get ⟨i, hi2⟩, ev) :=
  batch_one_outcome_per_row_in_input_order cfgPreview envAB "Hello {name}" rowsAB
    [SendOutcome.skipped "a@x.com", SendOutcome.skipped "b@x.com"] [] rfl rfl rfl

/-! ### C2 -/

/-- C2: in sending mode, when every row assembles successfully and the
provider accepts every payload, the run invokes the Credential Provider
exactly once, before any row is processed, and the Delivery Client exactly
once per row, in input row order: the event trace is exactly
`getCredential` followed by the `N` sends in row order. -/
theorem sending_mode_one_auth_then_n_sends_in_order
    (cfg : Config) (env : Env) (tpl : String) (rows : List Row)
    (ht : env.templateFile = some tpl) (hr : env.csvRows = some rows)
    (hd : cfg.dryRun = false) (ha : env.authOk = true)
    (hok : ∀ r ∈ rows,
      ∃ pw, create_message r cfg.subject tpl cfg.sender cfg.attach env = .ok pw ∧
        env.sendResult pw.1 = none) :
    mainRun cfg env =
      .ok (rows.map (fun r => SendOutcome.sent (emailOf r)),
           Event.getCredential ::
             rows.map (fun r => Event.send (payloadOf cfg tpl env r))) := by
  have hb := runBatch_sending_clean cfg tpl env hd rows hok
  unfold mainRun
  rw [ht, hr]
  dsimp only
  rw [if_neg (by rw [hd]; exact Bool.false_ne_true), if_pos ha, hb]

/-- C2, instantiated on the Ann/Bob batch in sending mode. -/
theorem sending_mode_one_auth_then_n_sends_in_order_witness :
    mainRun cfgSend envAB =
      .ok (rowsAB.map (fun r => SendOutcome.sent (emailOf r)),
           Event.getCredential ::
             rowsAB.map (fun r => Event.send (payloadOf cfgSend "Hello {name}" envAB r))) :=
  sending_mode_one_auth_then_n_sends_in_order cfgSend envAB "Hello {name}" rowsAB
    rfl rfl rfl rfl
    (by
      intro r hr
      simp only [rowsAB, List.mem_cons, List.not_mem_nil, or_false] at hr
      rcases hr with h | h <;> subst h <;> exact ⟨_, rfl, rfl⟩)

/-! ### C3 -/

/-- A row with no `email` field. -/
def rowNoEmail : Row := [("name", "Ann")]

/-- An environment whose spreadsheet holds only the email-less row. -/
def envNoEmail : Env :=
  { fs := fun _ => none
    guessType := fun _ => none
    markdown := id
    sendResult := fun _ => none
    templateFile := some "Hello {name}"
    csvRows := some [rowNoEmail]
    authOk := true }

/-- C3 counterexample: in preview mode the code still runs the full
message assembly, so a row with no `email` field produces a `Failed`
outcome, not `Skipped(dry-run)` — rows do not transition to `Skipped`
unconditionally. -/
theorem preview_row_missing_email_not_skipped :
    mainRun cfgPreview envNoEmail =
      .ok ([SendOutcome.failedMissingField "email" none], []) ∧
    ∀ e, SendOutcome.failedMissingField "email" none ≠ SendOutcome.skipped e :=
  ⟨rfl, fun _ h => SendOutcome.noConfusion h⟩

/-- C3 amended: for a batch of N rows run in preview mode, the run makes
no external invocations at all (Credential Provider zero times, Delivery
Client zero times), produces exactly N outcomes, and every row whose
message assembly succeeds transitions to `Skipped(dry-run)`. -/
theorem preview_mode_skips_assembled_rows_no_external_calls
    (cfg : Config) (env : Env) (tpl : String) (rows : List Row)
    (os : List SendOutcome) (evs : List Event)
    (ht : env.templateFile = some tpl) (hr : env.csvRows = some rows)
    (hd : cfg.dryRun = true)
    (h : mainRun cfg env = .ok (os, evs)) :
    evs = [] ∧ os.length = rows.length ∧
    ∀ i (hi : i < rows.length) (hi2 : i < os.length),
      (∃ pw, create_message (rows.get ⟨i, hi⟩) cfg.subject tpl cfg.sender
        cfg.attach env = .ok pw) →
      os.get ⟨i, hi2⟩ = .skipped (emailOf (rows.get ⟨i, hi⟩)) := by
  obtain ⟨evs', hb, hev⟩ := mainRun_ok_batch cfg env tpl rows os evs ht hr h
  have hevs : evs' = [] := runBatch_dryRun_evs cfg tpl env hd rows os evs' hb
  obtain ⟨hlen, hget⟩ := runBatch_ok_spec cfg tpl env rows os evs' hb
  refine ⟨by rw [hev]; simp [hd, hevs], hlen, ?_⟩
  intro i hi hi2 hok
  obtain ⟨pw, hc⟩ := hok
  obtain ⟨ev, hpr⟩ := hget i hi hi2
  have h2 := (processRow_dryRun_skipped cfg tpl env (rows.get ⟨i, hi⟩) pw hd
    hc).symm.trans hpr
  simp at h2
  exact h2.1.symm

/-- C3 amended, instantiated: the Ann/Bob batch in preview mode makes no
external calls and both rows are skipped. -/
theorem preview_mode_skips_assembled_rows_no_external_calls_witness :
    ([] : List Event) = [] ∧
    ([SendOutcome.skipped "a@x.com", SendOutcome.skipped "b@x.com"] :
      List SendOutcome).length = rowsAB.length ∧
    ∀ i (hi : i < rowsAB.length)
      (hi2 : i < ([SendOutcome.skipped "a@x.com", SendOutcome.skipped "b@x.com"] :
        List SendOutcome).length),
      (∃ pw, create_message (rowsAB.get ⟨i, hi⟩) cfgPreview.subject "Hello {name}"
        cfgPreview.sender cfgPreview.attach envAB = .ok pw) →
      ([SendOutcome.skipped "a@x.com", SendOutcome.skipped "b@x.com"] :
        List SendOutcome).get ⟨i, hi2⟩ = .skipped (emailOf (rowsAB.get ⟨i, hi⟩)) :=
  preview_mode_skips_assembled_rows_no_external_calls cfgPreview envAB
    "Hello {name}" rowsAB
    [SendOutcome.skipped "a@x.com", SendOutcome.skipped "b@x.com"] [] rfl rfl rfl rfl

/-! ### More helper lemmas about message assembly -/

/-- An error formatting the body template is the first thing
`create_message` does, so it propagates unchanged. -/
theorem create_message_body_error (row : Row) (s tpl snd : String)
    (atts : List String) (env : Env) (e : FmtError)
    (h : formatStr tpl row = .error e) :
    create_message row s tpl snd atts env = .error e := by
  unfold create_message
  rw [h]

/-- When the body formats but the row has no `email` field, assembly
fails with `KeyError("email")` at the `msg["To"]` assignment. -/
theorem create_message_no_email (row : Row) (s tpl snd : String)
    (atts : List String) (env : Env) (bodyS : String)
    (hbody : formatStr tpl row = .ok bodyS) (hne : row.get? "email" = none) :
    create_message row s tpl snd atts env = .error (.missingField "email") := by
  unfold create_message
  rw [hbody]
  dsimp only
  rw [hne]

/-- Assembling a completed row loop into a completed run. -/
theorem mainRun_of_runBatch (cfg : Config) (env : Env) (tpl : String)
    (rows : List Row) (os : List SendOutcome) (evs : List Event)
    (ht : env.templateFile = some tpl) (hr : env.csvRows = some rows)
    (hauth : cfg.dryRun = true ∨ env.authOk = true)
    (hb : runBatch cfg tpl env rows = .ok (os, evs)) :
    mainRun cfg env =
      .ok (os, if cfg.dryRun then evs else Event.getCredential :: evs) := by
  unfold mainRun
  rw [ht, hr]
  dsimp only
  by_cases hd : cfg.dryRun
  · rw [if_pos hd, hb, if_pos hd]
  · have ha : env.authOk = true := hauth.resolve_left hd
    rw [if_neg hd, if_pos ha, hb, if_neg hd]

/-! ### C4 -/

/-- When the body formats and the recipient is present, an error
formatting the subject is the next failure `create_message` can hit, and
it propagates unchanged. -/
theorem create_message_subject_error (row : Row) (s tpl snd : String)
    (atts : List String) (env : Env) (b to2 : String) (e : FmtError)
    (hbody : formatStr tpl row = .ok b) (he : row.get? "email" = some to2)
    (hsubj : formatStr s row = .error e) :
    create_message row s tpl snd atts env = .error e := by
  unfold create_message
  rw [hbody]
  dsimp only
  rw [he]
  dsimp only
  rw [hsubj]

/-- A failed substitution names a field genuinely absent from the row. -/
theorem renderToks_error_missing (row : Row) :
    ∀ (toks : List Tok) (f : String),
    renderToks toks row = .error f → row.get? f = none := by
  intro toks
  induction toks with
  | nil => intro f h; simp [renderToks] at h
  | cons t rest ih =>
    intro f h
    cases t with
    | lit c =>
      unfold renderToks at h
      cases hr : renderToks rest row with
      | error g => rw [hr] at h; simp [Except.map] at h; subst h; exact ih _ hr
      | ok out => rw [hr] at h; simp [Except.map] at h
    | field g =>
      unfold renderToks at h
      cases hg : row.get? g with
      | none => rw [hg] at h; simp at h; subst h; exact hg
      | some v =>
        rw [hg] at h
        cases hr : renderToks rest row with
        | error x => rw [hr] at h; simp [Except.map] at h; subst h; exact ih _ hr
        | ok out => rw [hr] at h; simp [Except.map] at h

/-- A successful substitution had every referenced field present. -/
theorem renderToks_ok_all_present (row : Row) :
    ∀ (toks : List Tok) (out : String),
    renderToks toks row = .ok out → ∀ f ∈ toksFields toks, (row.get? f).isSome := by
  intro toks
  induction toks with
  | nil => intro out _ f hf; simp [toksFields] at hf
  | cons t rest ih =>
    intro out h f hf
    cases t with
    | lit c =>
      unfold renderToks at h
      cases hr : renderToks rest row with
      | error g => rw [hr] at h; simp [Except.map] at h
      | ok out2 => exact ih out2 hr f hf
    | field g =>
      unfold renderToks at h
      cases hg : row.get? g with
      | none => rw [hg] at h; simp at h
      | some v =>
        have hf2 : f ∈ g :: toksFields rest := hf
        rcases List.mem_cons.mp hf2 with hfg | hfr
        · subst hfg
          rw [hg]
          rfl
        · rw [hg] at h
          cases hr : renderToks rest row with
          | error x => rw [hr] at h; simp [Except.map] at h
          | ok out2 => exact ih out2 hr f hfr

/-- With a well-formed template, formatting either succeeds with every
referenced field present, or names a genuinely missing field. -/
theorem formatStr_cases (tpl : String) (row : Row) (toks : List Tok)
    (hp : parseFmt tpl.data = .ok toks) :
    (∃ out, formatStr tpl row = .ok out ∧
      ∀ f ∈ toksFields toks, (row.get? f).isSome) ∨
    (∃ f, formatStr tpl row = .error (.missingField f) ∧ row.get? f = none) := by
  unfold formatStr
  rw [hp]
  dsimp only
  cases hr : renderToks toks row with
  | error f => exact Or.inr ⟨f, rfl, renderToks_error_missing row toks f hr⟩
  | ok out => exact Or.inl ⟨out, rfl, renderToks_ok_all_present row toks out hr⟩

/-- A row whose assembly fails on a missing field gets exactly one
`Failed` outcome at its batch position, and the run still completes. -/
theorem batch_failed_at_of_missing (cfg : Config) (env : Env) (tpl : String)
    (rows : List Row) (i : Nat) (hi : i < rows.length) (g : String)
    (ht : env.templateFile = some tpl) (hr : env.csvRows = some rows)
    (hauth : cfg.dryRun = true ∨ env.authOk = true)
    (hnofatal : ∀ r ∈ rows,
      create_message r cfg.subject tpl cfg.sender cfg.attach env ≠
        .error .malformed)
    (hc : create_message (rows.get ⟨i, hi⟩) cfg.subject tpl cfg.sender
      cfg.attach env = .error (.missingField g)) :
    ∃ os evs, mainRun cfg env = .ok (os, evs) ∧ os.length = rows.length ∧
      ∀ hi2 : i < os.length,
        os.get ⟨i, hi2⟩ = .failedMissingField g ((rows.get ⟨i, hi⟩).get? "email") := by
  obtain ⟨os, evs, hb⟩ := runBatch_ok_of_no_malformed cfg tpl env rows hnofatal
  refine ⟨os, _, mainRun_of_runBatch cfg env tpl rows os evs ht hr hauth hb,
    (runBatch_ok_spec cfg tpl env rows os evs hb).1, ?_⟩
  intro hi2
  obtain ⟨ev, hpr⟩ := (runBatch_ok_spec cfg tpl env rows os evs hb).2 i hi hi2
  have h2 := (processRow_of_missingField cfg tpl env (rows.get ⟨i, hi⟩) g
    hc).symm.trans hpr
  simp at h2
  exact h2.1.symm

/-- C4: for a row missing a field that the subject or the body template
references (both templates well-formed), the row's render/assembly fails
with a `KeyError` naming a field genuinely absent from the row — the
first one hit in program order: a body field, the recipient, or a subject
field — the Batch Runner records exactly one `Failed` outcome for that
row at its position, and processing continues: the batch is not aborted
and still yields one outcome per row. -/
theorem missing_field_row_fails_and_batch_continues
    (cfg : Config) (env : Env) (tpl : String) (rows : List Row) (i : Nat)
    (toksB toksS : List Tok) (hi : i < rows.length)
    (ht : env.templateFile = some tpl) (hr : env.csvRows = some rows)
    (hauth : cfg.dryRun = true ∨ env.authOk = true)
    (hparseB : parseFmt tpl.data = .ok toksB)
    (hparseS : parseFmt cfg.subject.data = .ok toksS)
    (hnofatal : ∀ r ∈ rows,
      create_message r cfg.subject tpl cfg.sender cfg.attach env ≠
        .error .malformed)
    (hmiss : ∃ f, f ∈ toksFields toksB ++ toksFields toksS ∧
      (rows.get ⟨i, hi⟩).get? f = none) :
    ∃ g, (rows.get ⟨i, hi⟩).get? g = none ∧
      create_message (rows.get ⟨i, hi⟩) cfg.subject tpl cfg.sender cfg.attach
        env = .error (.missingField g) ∧
      ∃ os evs, mainRun cfg env = .ok (os, evs) ∧ os.length = rows.length ∧
        ∀ hi2 : i < os.length,
          os.get ⟨i, hi2⟩ =
            .failedMissingField g ((rows.get ⟨i, hi⟩).get? "email") := by
  obtain ⟨f, hfmem, hfnone⟩ := hmiss
  rcases formatStr_cases tpl (rows.get ⟨i, hi⟩) toksB hparseB with
    ⟨b, hb, hallB⟩ | ⟨g, hg, hgnone⟩
  · by_cases hem : ((rows.get ⟨i, hi⟩).get? "email").isSome
    case neg =>
      have he : (rows.get ⟨i, hi⟩).get? "email" = none :=
        Option.not_isSome_iff_eq_none.mp hem
      have hc := create_message_no_email (rows.get ⟨i, hi⟩) cfg.subject tpl
        cfg.sender cfg.attach env b hb he
      exact ⟨"email", he, hc, batch_failed_at_of_missing cfg env tpl rows i hi
        "email" ht hr hauth hnofatal hc⟩
    case pos =>
      obtain ⟨to2, he⟩ := Option.isSome_iff_exists.mp hem
      rcases formatStr_cases cfg.subject (rows.get ⟨i, hi⟩) toksS hparseS with
        ⟨s2, hs2, hallS⟩ | ⟨g, hg2, hgnone⟩
      · exfalso
        rcases List.mem_append.mp hfmem with hf | hf
        · have hsome := hallB f hf
          rw [hfnone] at hsome
          simp at hsome
        · have hsome := hallS f hf
          rw [hfnone] at hsome
          simp at hsome
      · have hc := create_message_subject_error (rows.get ⟨i, hi⟩) cfg.subject
          tpl cfg.sender cfg.attach env b to2 (.missingField g) hb he hg2
        exact ⟨g, hgnone, hc, batch_failed_at_of_missing cfg env tpl rows i hi
          g ht hr hauth hnofatal hc⟩
  · have hc := create_message_body_error (rows.get ⟨i, hi⟩) cfg.subject tpl
      cfg.sender cfg.attach env (.missingField g) hg
    exact ⟨g, hgnone, hc, batch_failed_at_of_missing cfg env tpl rows i hi g
      ht hr hauth hnofatal hc⟩

/-- A row whose only field is an email address (missing `name`). -/
def rowOnlyEmail : Row := [("email", "c@x.com")]

/-- A row with a recipient and a `name`, but no `nick`. -/
def rowCal : Row := [("email", "c@x.com"), ("name", "Cal")]

/-- Batch for the C4 witness: Cal misses the subject-only field `nick`,
the second row has every field. -/
def rowsC4 : List Row :=
  [rowCal, [("email", "a@x.com"), ("name", "Ann"), ("nick", "A")]]

/-- Preview-mode arguments whose subject references `nick`. -/
def cfgSubjPreview : Config :=
  { subject := "Hi {nick}", sender := "Me <me@x.com>", attach := [], dryRun := true }

/-- Environment for the C4 witness. -/
def envC4 : Env :=
  { fs := fun _ => none
    guessType := fun _ => none
    markdown := id
    sendResult := fun _ => none
    templateFile := some "Hello {name}"
    csvRows := some rowsC4
    authOk := true }

/-- C4, instantiated: Cal's row renders its body and has a recipient but
misses the subject-referenced field `nick`; the run completes with one
`Failed` outcome naming a missing field at position 0. -/
theorem missing_field_row_fails_and_batch_continues_witness :
    ∃ g, (rowsC4.get ⟨0, by decide⟩).get? g = none ∧
      create_message (rowsC4.get ⟨0, by decide⟩) cfgSubjPreview.subject
        "Hello {name}" cfgSubjPreview.sender cfgSubjPreview.attach envC4 =
        .error (.missingField g) ∧
      ∃ os evs, mainRun cfgSubjPreview envC4 = .ok (os, evs) ∧
        os.length = rowsC4.length ∧
        ∀ hi2 : 0 < os.length,
          os.get ⟨0, hi2⟩ =
            .failedMissingField g ((rowsC4.get ⟨0, by decide⟩).get? "email") :=
  missing_field_row_fails_and_batch_continues cfgSubjPreview envC4
    "Hello {name}" rowsC4 0
    [Tok.lit 'H', Tok.lit 'e', Tok.lit 'l', Tok.lit 'l', Tok.lit 'o',
     Tok.lit ' ', Tok.field "name"]
    [Tok.lit 'H', Tok.lit 'i', Tok.lit ' ', Tok.field "nick"]
    (by decide) rfl rfl (Or.inl rfl) rfl rfl
    (by
      intro r hr
      simp only [rowsC4, List.mem_cons, List.not_mem_nil, or_false] at hr
      rcases hr with h | h <;> subst h <;> intro hcon
      · exact FmtError.noConfusion (Except.error.inj hcon)
      · exact Except.noConfusion hcon)
    ⟨"nick", by decide, rfl⟩

/-! ### C5 -/

/-- C5: in sending mode, a row whose body renders but that has no usable
recipient address fails assembly with the recipient-missing error
(`KeyError("email")`), the batch records `Failed` for it, and every other
row that assembles and is accepted by the provider is still sent
normally. -/
theorem missing_recipient_row_fails_others_sent
    (cfg : Config) (env : Env) (tpl : String) (rows : List Row) (i : Nat)
    (hi : i < rows.length) (os : List SendOutcome) (evs : List Event)
    (ht : env.templateFile = some tpl) (hr : env.csvRows = some rows)
    (hd : cfg.dryRun = false)
    (h : mainRun cfg env = .ok (os, evs))
    (hnoemail : (rows.get ⟨i, hi⟩).get? "email" = none)
    (hbody : ∃ s, formatStr tpl (rows.get ⟨i, hi⟩) = .ok s) :
    create_message (rows.get ⟨i, hi⟩) cfg.subject tpl cfg.sender cfg.attach env =
      .error (.missingField "email") ∧
    os.length = rows.length ∧
    (∀ hi2 : i < os.length, os.get ⟨i, hi2⟩ = .failedMissingField "email" none) ∧
    ∀ j (hj : j < rows.length) (hj2 : j < os.length),
      (∃ pw, create_message (rows.get ⟨j, hj⟩) cfg.subject tpl cfg.sender
          cfg.attach env = .ok pw ∧ env.sendResult pw.1 = none) →
      os.get ⟨j, hj2⟩ = .sent (emailOf (rows.get ⟨j, hj⟩)) := by
  obtain ⟨bodyS, hbody⟩ := hbody
  have hc := create_message_no_email (rows.get ⟨i, hi⟩) cfg.subject tpl
    cfg.sender cfg.attach env bodyS hbody hnoemail
  obtain ⟨evs', hb, -⟩ := mainRun_ok_batch cfg env tpl rows os evs ht hr h
  obtain ⟨hlen, hget⟩ := runBatch_ok_spec cfg tpl env rows os evs' hb
  refine ⟨hc, hlen, ?_, ?_⟩
  · intro hi2
    obtain ⟨ev, hpr⟩ := hget i hi hi2
    have h2 := (processRow_of_missingField cfg tpl env (rows.get ⟨i, hi⟩)
      "email" hc).symm.trans hpr
    simp at h2
    simp only [List.get_eq_getElem] at hnoemail ⊢
    rw [← h2.1, hnoemail]
  · intro j hj hj2 hokj
    obtain ⟨pw, hcj, hsj⟩ := hokj
    obtain ⟨ev, hpr⟩ := hget j hj hj2
    have h2 := (processRow_sent cfg tpl env (rows.get ⟨j, hj⟩) pw hd hcj
      hsj).symm.trans hpr
    simp at h2
    exact h2.1.symm

/-- Batch for the C5 witness: the spec's scenario — one row has no
`email` field, the other is Bob. -/
def rowsC5 : List Row := [rowNoEmail, [("email", "b@x.com"), ("name", "Bob")]]

/-- Environment for the C5 witness. -/
def envC5 : Env :=
  { fs := fun _ => none
    guessType := fun _ => none
    markdown := id
    sendResult := fun _ => none
    templateFile := some "Hello {name}"
    csvRows := some rowsC5
    authOk := true }

/-- C5, instantiated on the spec's scenario: the email-less row yields
`Failed(recipient missing)` and Bob's row is sent normally. -/
theorem missing_recipient_row_fails_others_sent_witness :
    create_message (rowsC5.get ⟨0, by decide⟩) cfgSend.subject "Hello {name}"
      cfgSend.sender cfgSend.attach envC5 = .error (.missingField "email") ∧
    ([SendOutcome.failedMissingField "email" none, SendOutcome.sent "b@x.com"] :
      List SendOutcome).length = rowsC5.length ∧
    (∀ hi2 : 0 < ([SendOutcome.failedMissingField "email" none,
        SendOutcome.sent "b@x.com"] : List SendOutcome).length,
      ([SendOutcome.failedMissingField "email" none, SendOutcome.sent "b@x.com"] :
        List SendOutcome).get ⟨0, hi2⟩ = .failedMissingField "email" none) ∧
    ∀ j (hj : j < rowsC5.length)
      (hj2 : j < ([SendOutcome.failedMissingField "email" none,
        SendOutcome.sent "b@x.com"] : List SendOutcome).length),
      (∃ pw, create_message (rowsC5.get ⟨j, hj⟩) cfgSend.subject "Hello {name}"
          cfgSend.sender cfgSend.attach envC5 = .ok pw ∧
        envC5.sendResult pw.1 = none) →
      ([SendOutcome.failedMissingField "email" none, SendOutcome.sent "b@x.com"] :
        List SendOutcome).get ⟨j, hj2⟩ = .sent (emailOf (rowsC5.get ⟨j, hj⟩)) :=
  missing_recipient_row_fails_others_sent cfgSend envC5 "Hello {name}" rowsC5 0
    (by decide)
    [SendOutcome.failedMissingField "email" none, SendOutcome.sent "b@x.com"]
    [Event.getCredential,
     Event.send (payloadOf cfgSend "Hello {name}" envC5 (rowsC5.get ⟨1, by decide⟩))]
    rfl rfl rfl rfl rfl ⟨"Hello Ann", rfl⟩

/-! ### C6 -/

/-- Attachment resolution only reads the file system at the formatted
pattern paths. -/
theorem attachFiles_congr (row : Row) (guess : String → Option String) :
    ∀ (paths : List String) (fs1 fs2 : FS),
    (∀ tpl ∈ paths, ∀ p, formatStr tpl row = .ok p → fs1 p = fs2 p) →
    attachFiles paths row fs1 guess = attachFiles paths row fs2 guess := by
  intro paths
  induction paths with
  | nil => intro fs1 fs2 _; rfl
  | cons tpl rest ih =>
    intro fs1 fs2 hfs
    unfold attachFiles
    cases hf : formatStr tpl row with
    | error e => rfl
    | ok fp =>
      rw [ih fs1 fs2 (fun t htm p hp => hfs t (List.mem_cons_of_mem tpl htm) p hp)]
      cases hb : attachFiles rest row fs2 guess with
      | error e => rfl
      | ok q =>
        obtain ⟨atts, warns⟩ := q
        dsimp only
        rw [hfs tpl (List.mem_cons_self tpl rest) fp hf]

/-- C6: message assembly is deterministic — two runs of `create_message`
with the same row, templates, sender and attachment patterns, against
environments with the same type-guessing and markdown functions that agree
on the contents (and existence) of every file an attachment pattern
resolves to, produce identical transport-encodable payloads. -/
theorem message_assembly_deterministic
    (row : Row) (subject_fmt body_template sender : String)
    (attachments : List String) (env1 env2 : Env)
    (hg : env1.guessType = env2.guessType) (hmd : env1.markdown = env2.markdown)
    (hfs : ∀ tpl ∈ attachments, ∀ p, formatStr tpl row = .ok p →
      env1.fs p = env2.fs p) :
    create_message row subject_fmt body_template sender attachments env1 =
      create_message row subject_fmt body_template sender attachments env2 := by
  unfold create_message
  rw [hmd, attachFiles_congr row env1.guessType attachments env1.fs env2.fs hfs, hg]

/-- Row used by the attachment fixtures. -/
def rowAnn : Row := [("email", "a@x.com"), ("name", "Ann")]

/-- A file system where only `Ann.pdf` exists. -/
def fsAnnOnly : FS := fun p => if p = "Ann.pdf" then some [1, 2, 3] else none

/-- A file system agreeing with `fsAnnOnly` on `Ann.pdf` but differing
everywhere else. -/
def fsAnnNoisy : FS := fun p => if p = "Ann.pdf" then some [1, 2, 3] else some [9]

/-- Environment pair for the C6 witness, differing only in the irrelevant
part of the file system. -/
def envFs1 : Env :=
  { fs := fsAnnOnly
    guessType := fun _ => some "application/pdf"
    markdown := id
    sendResult := fun _ => none
    templateFile := none
    csvRows := none
    authOk := true }

/-- Second environment of the C6 witness pair. -/
def envFs2 : Env :=
  { fs := fsAnnNoisy
    guessType := fun _ => some "application/pdf"
    markdown := id
    sendResult := fun _ => none
    templateFile := none
    csvRows := none
    authOk := true }

/-- C6, instantiated: assembling Ann's message with the `{name}.pdf`
attachment pattern gives the same payload in two environments that agree
on `Ann.pdf`. -/
theorem message_assembly_deterministic_witness :
    create_message rowAnn "Hi {name}" "B {name}" "m@x" ["{name}.pdf"] envFs1 =
      create_message rowAnn "Hi {name}" "B {name}" "m@x" ["{name}.pdf"] envFs2 :=
  message_assembly_deterministic rowAnn "Hi {name}" "B {name}" "m@x"
    ["{name}.pdf"] envFs1 envFs2 rfl rfl
    (by
      intro tpl htpl p hp
      simp only [List.mem_singleton] at htpl
      subst htpl
      have hp2 : "Ann.pdf" = p := Except.ok.inj hp
      subst hp2
      rfl)

/-! ### C7 -/

/-- A batch-fatal row loop makes the whole run fail the same way. -/
theorem mainRun_of_runBatch_error (cfg : Config) (env : Env) (tpl : String)
    (rows : List Row) (e : Fatal)
    (ht : env.templateFile = some tpl) (hr : env.csvRows = some rows)
    (hauth : cfg.dryRun = true ∨ env.authOk = true)
    (hb : runBatch cfg tpl env rows = .error e) :
    mainRun cfg env = .error e := by
  unfold mainRun
  rw [ht, hr]
  dsimp only
  by_cases hd : cfg.dryRun
  · rw [if_pos hd, hb]
  · rw [if_neg hd, if_pos (hauth.resolve_left hd), hb]

/-- The only batch-fatal error the row loop itself raises is the uncaught
format error. -/
theorem processRow_error_shape (cfg : Config) (tpl : String) (env : Env)
    (r : Row) (e : Fatal) (h : processRow cfg tpl env r = .error e) :
    e = .uncaughtFormatError := by
  unfold processRow at h
  cases hc : create_message r cfg.subject tpl cfg.sender cfg.attach env with
  | error e2 =>
    cases e2 with
    | malformed =>
      rw [hc] at h
      exact (Except.error.inj h).symm
    | missingField f =>
      rw [hc] at h
      exact Except.noConfusion h
  | ok pw =>
    rw [hc] at h
    dsimp only at h
    by_cases hd : cfg.dryRun
    · rw [if_pos hd] at h
      exact Except.noConfusion h
    · rw [if_neg hd] at h
      cases hs : env.sendResult pw.1 <;> rw [hs] at h <;>
        exact Except.noConfusion h

/-- If any row of the batch is batch-fatal, the whole loop errors out. -/
theorem runBatch_error_of_mem (cfg : Config) (tpl : String) (env : Env) :
    ∀ (rows : List Row) (r : Row), r ∈ rows →
    processRow cfg tpl env r = .error .uncaughtFormatError →
    runBatch cfg tpl env rows = .error .uncaughtFormatError := by
  intro rows
  induction rows with
  | nil => intro r hmem; exact absurd hmem (List.not_mem_nil r)
  | cons a rest ih =>
    intro r hmem hpe
    unfold runBatch
    rcases List.mem_cons.mp hmem with h | h
    · subst h
      rw [hpe]
    · cases hp : processRow cfg tpl env a with
      | error e =>
        have he := processRow_error_shape cfg tpl env a e hp
        subst he
        rfl
      | ok p =>
        obtain ⟨o, ev⟩ := p
        dsimp only
        rw [ih r h hpe]

/-- Preview-mode arguments with a malformed subject format (`"Hi {nick"`,
unterminated placeholder). -/
def cfgBadSubj : Config :=
  { subject := "Hi \x7bnick", sender := "Me <me@x.com>", attach := [], dryRun := true }

/-- C7 counterexample: malformed placeholder syntax in a template is not
always a whole-batch error.  With a malformed subject template and a
batch whose single row fails row-locally before the subject is formatted
(no `email` field), the malformed placeholder is never reached: the run
completes with a `Failed` outcome and exit status 0 instead of aborting. -/
theorem malformed_subject_template_run_not_aborted :
    parseFmt cfgBadSubj.subject.data = .error () ∧
    mainRun cfgBadSubj envNoEmail =
      .ok ([SendOutcome.failedMissingField "email" none], []) ∧
    exitCode cfgBadSubj envNoEmail = 0 :=
  ⟨rfl, rfl, rfl⟩

/-- C7 amended: malformed placeholder syntax is batch-fatal at the moment
a row's processing reaches the malformed template: a malformed body
template aborts any nonempty batch with a nonzero exit (the body is
formatted first for every row), and a malformed subject template aborts
the run as soon as some row renders its body and has a recipient; whereas
a field missing from a single row is only a row-local failure, caught and
recorded as that row's `Failed` outcome. -/
theorem malformed_template_fatal_missing_field_row_local
    (cfg : Config) (env : Env) (tpl : String) (rows : List Row) (row : Row)
    (f : String)
    (ht : env.templateFile = some tpl) (hr : env.csvRows = some rows)
    (hauth : cfg.dryRun = true ∨ env.authOk = true) :
    (parseFmt tpl.data = .error () → rows ≠ [] →
      mainRun cfg env = .error .uncaughtFormatError ∧ exitCode cfg env = 1) ∧
    (parseFmt cfg.subject.data = .error () →
      (∃ r ∈ rows, (∃ b, formatStr tpl r = .ok b) ∧
        ∃ to2, r.get? "email" = some to2) →
      mainRun cfg env = .error .uncaughtFormatError ∧ exitCode cfg env = 1) ∧
    (create_message row cfg.subject tpl cfg.sender cfg.attach env =
        .error (.missingField f) →
      processRow cfg tpl env row =
        .ok (.failedMissingField f (row.get? "email"), [])) := by
  refine ⟨?_, ?_, ?_⟩
  · intro hmal hne
    have hfmt : ∀ r : Row, formatStr tpl r = .error .malformed := by
      intro r
      unfold formatStr
      rw [hmal]
    obtain ⟨r0, rest, hrows⟩ : ∃ r0 rest, rows = r0 :: rest := by
      cases rows with
      | nil => exact absurd rfl hne
      | cons a l => exact ⟨a, l, rfl⟩
    have hbatch : runBatch cfg tpl env rows = .error .uncaughtFormatError := by
      rw [hrows]
      exact runBatch_malformed_head cfg tpl env r0 rest
        (create_message_body_error r0 cfg.subject tpl cfg.sender cfg.attach
          env .malformed (hfmt r0))
    have hmain := mainRun_of_runBatch_error cfg env tpl rows
      .uncaughtFormatError ht hr hauth hbatch
    exact ⟨hmain, by unfold exitCode; rw [hmain]⟩
  · intro hmalS hreach
    obtain ⟨r, hrmem, ⟨b, hbok⟩, ⟨to2, hto⟩⟩ := hreach
    have hsubj : formatStr cfg.subject r = .error .malformed := by
      unfold formatStr
      rw [hmalS]
    have hc := create_message_subject_error r cfg.subject tpl cfg.sender
      cfg.attach env b to2 .malformed hbok hto hsubj
    have hbatch := runBatch_error_of_mem cfg tpl env rows r hrmem
      (processRow_of_malformed cfg tpl env r hc)
    have hmain := mainRun_of_runBatch_error cfg env tpl rows
      .uncaughtFormatError ht hr hauth hbatch
    exact ⟨hmain, by unfold exitCode; rw [hmain]⟩
  · intro hcm
    exact processRow_of_missingField cfg tpl env row f hcm

/-- C7 amended, instantiated: body `"Hello {name}"` and the malformed
subject `"Hi {nick"` over the Ann/Bob batch, whose rows do reach subject
formatting; the row-local conjunct is instantiated at the `name`-less
row. -/
theorem malformed_template_fatal_missing_field_row_local_witness :
    (parseFmt ("Hello {name}" : String).data = .error () → rowsAB ≠ [] →
      mainRun cfgBadSubj envAB = .error .uncaughtFormatError ∧
      exitCode cfgBadSubj envAB = 1) ∧
    (parseFmt cfgBadSubj.subject.data = .error () →
      (∃ r ∈ rowsAB, (∃ b, formatStr "Hello {name}" r = .ok b) ∧
        ∃ to2, r.get? "email" = some to2) →
      mainRun cfgBadSubj envAB = .error .uncaughtFormatError ∧
      exitCode cfgBadSubj envAB = 1) ∧
    (create_message rowOnlyEmail cfgBadSubj.subject "Hello {name}"
        cfgBadSubj.sender cfgBadSubj.attach envAB =
        .error (.missingField "name") →
      processRow cfgBadSubj "Hello {name}" envAB rowOnlyEmail =
        .ok (.failedMissingField "name" (rowOnlyEmail.get? "email"), [])) :=
  malformed_template_fatal_missing_field_row_local cfgBadSubj envAB
    "Hello {name}" rowsAB rowOnlyEmail "name" rfl rfl (Or.inl rfl)

/-! ### C8 -/

/-- Characterisation of a successful attachment resolution: the result is
the in-order filter-map of the pattern list — existing files become
attachments, nonexistent formatted paths are dropped and warned about. -/
theorem attachFiles_ok_spec (row : Row) (fs : FS) (guess : String → Option String) :
    ∀ (patterns : List String),
    (∀ tpl ∈ patterns, ∃ p, formatStr tpl row = .ok p) →
    attachFiles patterns row fs guess =
      .ok (patterns.filterMap (fun tpl =>
             (formatStr tpl row).toOption.bind (fun p =>
               (fs p).map (fun bytes => mkAttachment p guess bytes))),
           patterns.filterMap (fun tpl =>
             (formatStr tpl row).toOption.bind (fun p =>
               match fs p with | none => some p | some _ => none))) := by
  intro patterns
  induction patterns with
  | nil => intro _; rfl
  | cons tpl rest ih =>
    intro hfmt
    obtain ⟨p, hp⟩ := hfmt tpl (List.mem_cons_self tpl rest)
    unfold attachFiles
    rw [hp, ih (fun t htm => hfmt t (List.mem_cons_of_mem tpl htm))]
    cases hfp : fs p with
    | none => simp [List.filterMap_cons, hp, hfp, Except.toOption]
    | some bytes => simp [List.filterMap_cons, hp, hfp, Except.toOption]

/-- C8: attachment resolution, when every pattern formats against the
row, succeeds; the resolved attachments appear in the same order as the
input pattern list with nonexistent formatted paths dropped into the
warning list instead of failing the row; and it is idempotent — resolving
again over any file system that agrees on the formatted paths yields the
identical result. -/
theorem attachment_resolution_order_and_drop
    (patterns : List String) (row : Row) (fs : FS)
    (guess : String → Option String)
    (hfmt : ∀ tpl ∈ patterns, ∃ p, formatStr tpl row = .ok p) :
    ∃ atts warns,
      attachFiles patterns row fs guess = .ok (atts, warns) ∧
      atts = patterns.filterMap (fun tpl =>
        (formatStr tpl row).toOption.bind (fun p =>
          (fs p).map (fun bytes => mkAttachment p guess bytes))) ∧
      warns = patterns.filterMap (fun tpl =>
        (formatStr tpl row).toOption.bind (fun p =>
          match fs p with | none => some p | some _ => none)) ∧
      ∀ fs2 : FS,
        (∀ tpl ∈ patterns, ∀ p, formatStr tpl row = .ok p → fs p = fs2 p) →
        attachFiles patterns row fs2 guess = attachFiles patterns row fs guess :=
  ⟨_, _, attachFiles_ok_spec row fs guess patterns hfmt, rfl, rfl,
    fun fs2 h2 => (attachFiles_congr row guess patterns fs fs2 h2).symm⟩

/-- C8, instantiated: patterns `{name}.pdf` (file exists) and
`missing.txt` (file absent) on Ann's row resolve to one attachment and
one warning, in pattern order. -/
theorem attachment_resolution_order_and_drop_witness :
    ∃ atts warns,
      attachFiles ["{name}.pdf", "missing.txt"] rowAnn fsAnnOnly
        (fun _ => some "application/pdf") = .ok (atts, warns) ∧
      atts = (["{name}.pdf", "missing.txt"] : List String).filterMap (fun tpl =>
        (formatStr tpl rowAnn).toOption.bind (fun p =>
          (fsAnnOnly p).map (fun bytes =>
            mkAttachment p (fun _ => some "application/pdf") bytes))) ∧
      warns = (["{name}.pdf", "missing.txt"] : List String).filterMap (fun tpl =>
        (formatStr tpl rowAnn).toOption.bind (fun p =>
          match fsAnnOnly p with | none => some p | some _ => none)) ∧
      ∀ fs2 : FS,
        (∀ tpl ∈ (["{name}.pdf", "missing.txt"] : List String), ∀ p,
          formatStr tpl rowAnn = .ok p → fsAnnOnly p = fs2 p) →
        attachFiles ["{name}.pdf", "missing.txt"] rowAnn fs2
            (fun _ => some "application/pdf") =
          attachFiles ["{name}.pdf", "missing.txt"] rowAnn fsAnnOnly
            (fun _ => some "application/pdf") :=
  attachment_resolution_order_and_drop ["{name}.pdf", "missing.txt"] rowAnn
    fsAnnOnly (fun _ => some "application/pdf")
    (by
      intro tpl htpl
      simp only [List.mem_cons, List.not_mem_nil, or_false] at htpl
      rcases htpl with h | h <;> subst h
      · exact ⟨"Ann.pdf", rfl⟩
      · exact ⟨"missing.txt", rfl⟩)

/-! ### C9 -/

theorem toksFields_cons_lit (c : Char) (rest : List Tok) :
    toksFields (.lit c :: rest) = toksFields rest := rfl

theorem toksFields_cons_field (f : String) (rest : List Tok) :
    toksFields (.field f :: rest) = f :: toksFields rest := rfl

/-- Substitution succeeds when every referenced field is present. -/
theorem renderToks_ok_of_all_present (row : Row) :
    ∀ (toks : List Tok),
    (∀ f ∈ toksFields toks, (row.get? f).isSome) →
    ∃ out, renderToks toks row = .ok out := by
  intro toks
  induction toks with
  | nil => intro _; exact ⟨"", rfl⟩
  | cons t rest ih =>
    intro hall
    cases t with
    | lit c =>
      obtain ⟨out, hout⟩ := ih (by rw [toksFields_cons_lit] at hall; exact hall)
      exact ⟨String.singleton c ++ out, by unfold renderToks; rw [hout]; rfl⟩
    | field f =>
      have hf : (row.get? f).isSome := by
        rw [toksFields_cons_field] at hall
        exact hall f (List.mem_cons_self f _)
      obtain ⟨v, hv⟩ := Option.isSome_iff_exists.mp hf
      obtain ⟨out, hout⟩ := ih (fun g hg => hall g
        (by rw [toksFields_cons_field]; exact List.mem_cons_of_mem f hg))
      exact ⟨v ++ out, by unfold renderToks; rw [hv, hout]; rfl⟩

/-- The rendered output contains each substituted field value verbatim. -/
theorem renderToks_contains_value (row : Row) :
    ∀ (toks : List Tok) (out f v : String),
    renderToks toks row = .ok out → Tok.field f ∈ toks → row.get? f = some v →
    ∃ pre post, out = pre ++ v ++ post := by
  intro toks
  induction toks with
  | nil => intro out f v _ hmem; exact absurd hmem (List.not_mem_nil _)
  | cons t rest ih =>
    intro out f v hout hmem hv
    cases t with
    | lit c =>
      unfold renderToks at hout
      cases hr : renderToks rest row with
      | error g => rw [hr] at hout; simp [Except.map] at hout
      | ok out' =>
        rw [hr] at hout
        simp [Except.map] at hout
        subst hout
        have hmem' : Tok.field f ∈ rest := by
          rcases List.mem_cons.mp hmem with h | h
          · exact absurd h (fun hh => Tok.noConfusion hh)
          · exact h
        obtain ⟨pre, post, hpp⟩ := ih out' f v hr hmem' hv
        exact ⟨String.singleton c ++ pre, post,
          by simp [hpp, String.append_assoc]⟩
    | field g =>
      unfold renderToks at hout
      cases hg : row.get? g with
      | none => rw [hg] at hout; simp at hout
      | some w =>
        rw [hg] at hout
        cases hr : renderToks rest row with
        | error x => rw [hr] at hout; simp [Except.map] at hout
        | ok out' =>
          rw [hr] at hout
          simp [Except.map] at hout
          subst hout
          rcases List.mem_cons.mp hmem with h | h
          · injection h with hfg
            subst hfg
            rw [hg] at hv
            injection hv with hvw
            subst hvw
            exact ⟨"", out', by rw [String.empty_append]⟩
          · obtain ⟨pre, post, hpp⟩ := ih out' f v hr h hv
            exact ⟨w ++ pre, post, by simp [hpp, String.append_assoc]⟩

/-- When neither the literal tokens nor the substituted values contain a
brace, neither does the rendered output. -/
theorem renderToks_no_braces (row : Row) :
    ∀ (toks : List Tok) (out : String),
    renderToks toks row = .ok out →
    (∀ c, Tok.lit c ∈ toks → c ≠ '{' ∧ c ≠ '}') →
    (∀ f v, Tok.field f ∈ toks → row.get? f = some v →
      ∀ c ∈ v.data, c ≠ '{' ∧ c ≠ '}') →
    ∀ c ∈ out.data, c ≠ '{' ∧ c ≠ '}' := by
  intro toks
  induction toks with
  | nil =>
    intro out hout _ _ c hc
    simp [renderToks] at hout
    subst hout
    simp at hc
  | cons t rest ih =>
    intro out hout hlits hvals c hc
    cases t with
    | lit c' =>
      unfold renderToks at hout
      cases hr : renderToks rest row with
      | error g => rw [hr] at hout; simp [Except.map] at hout
      | ok out' =>
        rw [hr] at hout
        simp [Except.map] at hout
        subst hout
        rw [String.data_append] at hc
        rcases List.mem_append.mp hc with h | h
        · have : c = c' := by simpa using h
          subst this
          exact hlits c (List.mem_cons_self _ _)
        · exact ih out' hr
            (fun d hd => hlits d (List.mem_cons_of_mem _ hd))
            (fun f v hf hv => hvals f v (List.mem_cons_of_mem _ hf) hv) c h
    | field g =>
      unfold renderToks at hout
      cases hg : row.get? g with
      | none => rw [hg] at hout; simp at hout
      | some w =>
        rw [hg] at hout
        cases hr : renderToks rest row with
        | error x => rw [hr] at hout; simp [Except.map] at hout
        | ok out' =>
          rw [hr] at hout
          simp [Except.map] at hout
          subst hout
          rw [String.data_append] at hc
          rcases List.mem_append.mp hc with h | h
          · exact hvals g w (List.mem_cons_self _ _) hg c h
          · exact ih out' hr
              (fun d hd => hlits d (List.mem_cons_of_mem _ hd))
              (fun f v hf hv => hvals f v (List.mem_cons_of_mem _ hf) hv) c h

/-- C9: when every placeholder of a template is present as a field of the
row, `render` succeeds, its output contains every substituted field value
verbatim, and no placeholder syntax remains: provided literal text and
field values are brace-free (the template uses no `{{`/`}}` escapes and
no value smuggles a brace in), the output contains no brace at all.
Instantiated at the subject and at the body template, this is the spec's
render guarantee. -/
theorem render_substitutes_values_no_placeholder_left
    (tpl : String) (row : Row) (toks : List Tok)
    (hparse : parseFmt tpl.data = .ok toks)
    (hall : ∀ f ∈ toksFields toks, (row.get? f).isSome) :
    ∃ out, formatStr tpl row = .ok out ∧
      (∀ f v, Tok.field f ∈ toks → row.get? f = some v →
        ∃ pre post, out = pre ++ v ++ post) ∧
      ((∀ c, Tok.lit c ∈ toks → c ≠ '{' ∧ c ≠ '}') →
       (∀ f v, Tok.field f ∈ toks → row.get? f = some v →
         ∀ c ∈ v.data, c ≠ '{' ∧ c ≠ '}') →
       ∀ c ∈ out.data, c ≠ '{' ∧ c ≠ '}') := by
  obtain ⟨out, hout⟩ := renderToks_ok_of_all_present row toks hall
  refine ⟨out, ?_,
    fun f v hf hv => renderToks_contains_value row toks out f v hout hf hv,
    fun hlits hvals => renderToks_no_braces row toks out hout hlits hvals⟩
  unfold formatStr
  rw [hparse]
  dsimp only
  rw [hout]

/-- C9, instantiated: rendering `"Hi {name}"` against Ann's row. -/
theorem render_substitutes_values_no_placeholder_left_witness :
    ∃ out, formatStr "Hi {name}" rowAnn = .ok out ∧
      (∀ f v, Tok.field f ∈ [Tok.lit 'H', Tok.lit 'i', Tok.lit ' ',
          Tok.field "name"] → rowAnn.get? f = some v →
        ∃ pre post, out = pre ++ v ++ post) ∧
      ((∀ c, Tok.lit c ∈ [Tok.lit 'H', Tok.lit 'i', Tok.lit ' ',
          Tok.field "name"] → c ≠ '{' ∧ c ≠ '}') →
       (∀ f v, Tok.field f ∈ [Tok.lit 'H', Tok.lit 'i', Tok.lit ' ',
          Tok.field "name"] → rowAnn.get? f = some v →
         ∀ c ∈ v.data, c ≠ '{' ∧ c ≠ '}') →
       ∀ c ∈ out.data, c ≠ '{' ∧ c ≠ '}') :=
  render_substitutes_values_no_placeholder_left "Hi {name}" rowAnn
    [Tok.lit 'H', Tok.lit 'i', Tok.lit ' ', Tok.field "name"] rfl
    (by
      intro f hf
      simp [toksFields, List.filterMap_cons] at hf
      subst hf
      rfl)

/-! ### C10 -/

/-- C10: a run whose row loop completes exits with status 0 whatever the
individual row outcomes were, while the fatal setup errors — unreadable
template, unreadable spreadsheet, failed credential acquisition — exit
nonzero. -/
theorem exit_zero_on_completion_nonzero_on_setup_failure
    (cfg : Config) (env : Env) :
    (∀ os evs, mainRun cfg env = .ok (os, evs) → exitCode cfg env = 0) ∧
    (env.templateFile = none → exitCode cfg env = 1) ∧
    (∀ tpl, env.templateFile = some tpl → env.csvRows = none →
      exitCode cfg env = 1) ∧
    (∀ tpl rows, env.templateFile = some tpl → env.csvRows = some rows →
      cfg.dryRun = false → env.authOk = false → exitCode cfg env = 1) := by
  refine ⟨?_, ?_, ?_, ?_⟩
  · intro os evs h
    unfold exitCode
    rw [h]
  · intro h
    unfold exitCode mainRun
    rw [h]
  · intro tpl h1 h2
    unfold exitCode mainRun
    rw [h1, h2]
  · intro tpl rows h1 h2 hd ha
    unfold exitCode mainRun
    rw [h1, h2]
    dsimp only
    rw [if_neg (by rw [hd]; exact Bool.false_ne_true),
      if_neg (by rw [ha]; exact Bool.false_ne_true)]

/-- Environment with an unreadable template file. -/
def envNoTpl : Env :=
  { fs := fun _ => none
    guessType := fun _ => none
    markdown := id
    sendResult := fun _ => none
    templateFile := none
    csvRows := some rowsAB
    authOk := true }

/-- Environment with an unreadable spreadsheet. -/
def envNoCsv : Env :=
  { fs := fun _ => none
    guessType := fun _ => none
    markdown := id
    sendResult := fun _ => none
    templateFile := some "Hello {name}"
    csvRows := none
    authOk := true }

/-- Environment where credential acquisition fails. -/
def envNoAuth : Env :=
  { fs := fun _ => none
    guessType := fun _ => none
    markdown := id
    sendResult := fun _ => none
    templateFile := some "Hello {name}"
    csvRows := some rowsAB
    authOk := false }

/-- C10, instantiated: a completed preview run exits 0; a missing
template, a missing spreadsheet and a failed authentication each exit 1. -/
theorem exit_zero_on_completion_nonzero_on_setup_failure_witness :
    exitCode cfgPreview envAB = 0 ∧
    exitCode cfgPreview envNoTpl = 1 ∧
    exitCode cfgPreview envNoCsv = 1 ∧
    exitCode cfgSend envNoAuth = 1 :=
  ⟨(exit_zero_on_completion_nonzero_on_setup_failure cfgPreview envAB).1
      [SendOutcome.skipped "a@x.com", SendOutcome.skipped "b@x.com"] [] rfl,
   (exit_zero_on_completion_nonzero_on_setup_failure cfgPreview envNoTpl).2.1 rfl,
   (exit_zero_on_completion_nonzero_on_setup_failure cfgPreview envNoCsv).2.2.1
      "Hello {name}" rfl rfl,
   (exit_zero_on_completion_nonzero_on_setup_failure cfgSend envNoAuth).2.2.2
      "Hello {name}" rowsAB rfl rfl rfl rfl⟩
